import Mathlib

/-!
Verification of the Echolocate frontend core: stores, alert type domains,
the custom-rule condition tree, its builder, and the scan orchestration
contracts. Each definition is a shallow embedding of the corresponding
TypeScript source; definitions marked "Modelled from the spec" stand for
backend (Rust) code that is not part of the TypeScript tree and are taken
from the specification text instead. JavaScript numbers that carry
fractional values are represented by Rat; IPv4 addresses, which the
backend always delivers as dotted quads, are represented by their four
parsed octets.
-/

namespace Echolocate

/-! ## Error store (src/lib/stores/error.svelte.ts) -/

/-- Embeds the AppError interface: a structured error with a code and a
message, an optional details field and a timestamp. -/
structure AppError where
  code : String
  message : String
  details : Option String
  timestamp : String
deriving DecidableEq

/-- Embeds the ErrorState interface backing the error store. -/
structure ErrorState where
  current_error : Option AppError
  history : List AppError
  is_visible : Bool
deriving DecidableEq

/-- The initial state passed to writable in createErrorStore. -/
def initialErrorState : ErrorState :=
  { current_error := none, history := [], is_visible := false }

/-- Embeds errorStore.addError: sets the current error, appends it to the
history truncated to its last 19 entries (history.slice(-19) followed by
the new error), and shows the toast. -/
def addError (error : AppError) (state : ErrorState) : ErrorState :=
  { state with
    current_error := some error
    history := state.history.drop (state.history.length - 19) ++ [error]
    is_visible := true }

/-- Embeds errorStore.clearError. -/
def clearError (state : ErrorState) : ErrorState :=
  { state with current_error := none, is_visible := false }

/-- Embeds errorStore.clearHistory. -/
def clearHistory (state : ErrorState) : ErrorState :=
  { state with history := [] }

/-- Embeds the auto-hide timer callback inside addError, which only clears
the visibility flag. -/
def hideError (state : ErrorState) : ErrorState :=
  { state with is_visible := false }

/-- States of the error store reachable from its initial state by the
operations it exposes (including the auto-hide callback). -/
inductive ErrorReach : ErrorState → Prop where
  | init : ErrorReach initialErrorState
  | add (e : AppError) {s : ErrorState} : ErrorReach s → ErrorReach (addError e s)
  | clear {s : ErrorState} : ErrorReach s → ErrorReach (clearError s)
  | clearHist {s : ErrorState} : ErrorReach s → ErrorReach (clearHistory s)
  | hide {s : ErrorState} : ErrorReach s → ErrorReach (hideError s)

/-! ## Alert types (src/lib/types/alert.ts, the live module) -/

/-- Embeds the AlertType union of the live types module: one single
enumeration of camelCase values, shared between the alert event field and
the rule type field. -/
inductive AlertType where
  | newDevice
  | deviceDeparted
  | portChanged
  | unknownDevice
deriving DecidableEq

/-- Embeds the Severity union. -/
inductive Severity where
  | info
  | warning
  | critical
deriving DecidableEq

/-- The string literal carried by each AlertType member in the live
module. -/
def alertTypeValue : AlertType → String
  | .newDevice => "newDevice"
  | .deviceDeparted => "deviceDeparted"
  | .portChanged => "portChanged"
  | .unknownDevice => "unknownDevice"

/-- All members of the shared AlertType union, as their string values. -/
def alertTypeValues : List String :=
  [AlertType.newDevice, .deviceDeparted, .portChanged, .unknownDevice].map
    alertTypeValue

/-- Embeds the Alert interface: an emitted alert event record, its
alertType field typed by the shared union. -/
structure Alert where
  id : String
  alertType : AlertType
  deviceId : Option String
  message : String
  severity : Severity
  isRead : Bool
  createdAt : String
deriving DecidableEq

/-- Embeds the AlertRule interface: a built-in rule row, its ruleType
field typed by the same shared AlertType union as the alert event
field. -/
structure AlertRule where
  id : String
  ruleType : AlertType
  isEnabled : Bool
  severity : Severity
  notifyDesktop : Bool
deriving DecidableEq

/-- Embeds the alert_rules seed rows of the database schema, column for
column (id, rule_type, is_enabled, severity, notify_desktop). -/
def alertRulesSeed : List (String × String × Bool × String × Bool) :=
  [("rule_new_device", "new_device", true, "info", true),
   ("rule_device_departed", "device_departed", true, "info", false),
   ("rule_port_changed", "port_changed", true, "warning", true),
   ("rule_untrusted_device", "untrusted_device", true, "warning", true)]

/-- The rule_type column of the seeded built-in rule rows. -/
def seedRuleTypes : List String :=
  alertRulesSeed.map fun row => row.2.1

/-- Modelled from the spec: the built-in rule-type domain the claim and
section 3 of the specification describe. -/
def specRuleTypeValues : List String :=
  ["new_device", "device_departed", "port_changed", "untrusted_device"]

/-- Modelled from the spec: the alert event-type domain the claim and
section 3 of the specification describe. -/
def specEventTypeValues : List String :=
  ["new_device", "device_departed", "port_changed", "unknown_device"]

/-! ## Alerts store (src/lib/stores/alerts.svelte.ts) -/

/-- Embeds setAlerts: replace all alerts. -/
def setAlerts (list : List Alert) : List Alert := list

/-- Embeds addAlert: prepend the new alert, newest first. -/
def addAlert (alert : Alert) (list : List Alert) : List Alert :=
  alert :: list

/-- Embeds markRead: map over the list, setting isRead on the alert whose
id matches. -/
def markRead (alertId : String) (list : List Alert) : List Alert :=
  list.map fun a => if a.id = alertId then { a with isRead := true } else a

/-- Embeds markAllRead: map over the list, setting isRead on every alert. -/
def markAllRead (list : List Alert) : List Alert :=
  list.map fun a => { a with isRead := true }

/-! ## Scan-error path (tauri-events onScanError and its handler in
routes/+layout) -/

/-- Embeds the payload type of the scan:error event subscription: only a
message field. -/
structure ScanErrorPayload where
  message : String
deriving DecidableEq

/-- Embeds the onScanError handler that surfaces scan failures: it wraps
the event payload into an AppError with the fixed code SCAN_FAILED and the
payload message, then hands it to errorStore.addError. -/
def scanErrorToAppError (p : ScanErrorPayload) (now : String) : AppError :=
  { code := "SCAN_FAILED", message := p.message, details := none, timestamp := now }

/-! ## Scan orchestration guard and scan controls -/

/-- Embeds the ScanStatus domain of scan records. -/
inductive ScanStatus where
  | running
  | completed
  | failed
  | cancelled
deriving DecidableEq

/-- A scan record as far as the start-scan guard observes it. -/
structure ScanRec where
  id : String
  status : ScanStatus
deriving DecidableEq

/-- Whether some scan in the collection is Running. -/
def hasRunning (scans : List ScanRec) : Bool :=
  scans.any fun s => s.status = ScanStatus.running

/-- The number of Running scans in the collection. -/
def runningCount (scans : List ScanRec) : Nat :=
  (scans.filter fun s => s.status = ScanStatus.running).length

/-- Errors the start-scan request can be rejected with. -/
inductive ScanStartError where
  | conflict (message : String)
deriving DecidableEq

/-- Modelled from the spec: the orchestrator start-scan guard (src-tauri
scanner orchestrator, outside the TypeScript tree). If another scan is
already Running the request is rejected with a scan-in-progress conflict
error and no scan record is created; otherwise a fresh Running scan record
is added. -/
def startScanGuard (scans : List ScanRec) (newId : String) :
    Except ScanStartError (List ScanRec) :=
  if hasRunning scans then
    .error (.conflict "scan in progress")
  else
    .ok ({ id := newId, status := .running } :: scans)

/-- One button of the scan controls bar. -/
structure ScanButton where
  label : String
  disabled : Bool
deriving DecidableEq

/-- Embeds the ScanControls markup: both the Quick Scan and the Full Scan
button carry the disabled attribute bound to the scanning flag, and the
quick-scan label reflects the scanning state. -/
def renderScanControls (scanning : Bool) : List ScanButton :=
  [ { label := if scanning then "Scanning..." else "Quick Scan", disabled := scanning },
    { label := "Full Scan", disabled := scanning } ]

/-! ## Device model (src/lib/types/device.ts) -/

/-- Embeds the DeviceType union. -/
inductive DeviceType where
  | router
  | computer
  | phone
  | tablet
  | iot
  | printer
  | unknown
deriving DecidableEq

/-- Embeds the PortInfo interface. -/
structure PortInfo where
  port : Nat
  protocol : String
  state : String
  serviceName : Option String
  banner : Option String
deriving DecidableEq

/-- An IPv4 address as its four parsed octets. The source keeps addresses
as dotted-quad strings; compareIps splits such a string on dots and
compares the four numeric parts, which this representation captures
directly. -/
structure IpAddr where
  o1 : Nat
  o2 : Nat
  o3 : Nat
  o4 : Nat
deriving DecidableEq

/-- Embeds the Device interface. osConfidence and latencyMs are JavaScript
numbers, represented by Rat; currentIp is represented by its parsed
octets. customProperties is the extensible key-value side-table the spec
attaches to a device for the custom_property condition. -/
structure Device where
  id : String
  macAddress : Option String
  vendor : Option String
  hostname : Option String
  customName : Option String
  deviceType : DeviceType
  osGuess : Option String
  osConfidence : Rat
  isTrusted : Bool
  isGateway : Bool
  notes : Option String
  currentIp : Option IpAddr
  isOnline : Bool
  latencyMs : Option Rat
  openPorts : List PortInfo
  firstSeen : String
  lastSeen : String
  customProperties : List (String × String)
deriving DecidableEq

/-! ## Device store (src/lib/stores/devices part of scan.svelte.ts). The
JavaScript Map keyed by device id is embedded as a partial function from
ids to devices. -/

/-- The device map type. -/
def DeviceMap : Type := String → Option Device

/-- Embeds upsertDevice: Map.set of the device under its id. -/
def upsertDevice (device : Device) (m : DeviceMap) : DeviceMap :=
  fun k => if k = device.id then some device else m k

/-- Embeds removeDevice on the map: Map.delete of the id. -/
def removeDevice (deviceId : String) (m : DeviceMap) : DeviceMap :=
  fun k => if k = deviceId then none else m k

/-- Embeds markDeparted: if the id is absent the map is returned
unchanged; otherwise the entry is replaced by a copy of the device with
isOnline set to false. -/
def markDeparted (deviceId : String) (m : DeviceMap) : DeviceMap :=
  match m deviceId with
  | none => m
  | some device =>
      fun k => if k = deviceId then some { device with isOnline := false } else m k

/-! ## Derived device ordering (devices derived store and compareIps) -/

/-- Embeds compareIps: null addresses sort after present ones, two null
addresses tie, and two addresses are compared octet by octet, returning
the difference of the first differing parts. -/
def compareIps (a b : Option IpAddr) : Int :=
  match a, b with
  | none, none => 0
  | none, some _ => 1
  | some _, none => -1
  | some x, some y =>
      if x.o1 ≠ y.o1 then (x.o1 : Int) - (y.o1 : Int)
      else if x.o2 ≠ y.o2 then (x.o2 : Int) - (y.o2 : Int)
      else if x.o3 ≠ y.o3 then (x.o3 : Int) - (y.o3 : Int)
      else if x.o4 ≠ y.o4 then (x.o4 : Int) - (y.o4 : Int)
      else 0

/-- Embeds the comparator inside the devices derived store: online before
offline, then gateway before non-gateway, then by IP. -/
def compareDevices (a b : Device) : Int :=
  if a.isOnline ≠ b.isOnline then (if a.isOnline then -1 else 1)
  else if a.isGateway ≠ b.isGateway then (if a.isGateway then -1 else 1)
  else compareIps a.currentIp b.currentIp

/-- Embeds the devices derived store: the map values sorted by the
comparator (JavaScript sort is a stable comparison sort, embedded as a
stable merge sort). -/
def sortedDevices (l : List Device) : List Device :=
  l.mergeSort fun a b => compareDevices a b ≤ 0

/-- The ordering the claim describes, written from its words: all online
devices precede all offline devices, gateway devices precede non-gateway
devices among equal online status, and remaining ties are ordered by
octet-wise numeric comparison of the IP, devices lacking an IP after
those that have one. -/
def ipLeSpec : Option IpAddr → Option IpAddr → Prop
  | none, none => True
  | none, some _ => False
  | some _, none => True
  | some x, some y =>
      x.o1 < y.o1 ∨ (x.o1 = y.o1 ∧ (x.o2 < y.o2 ∨ (x.o2 = y.o2 ∧
        (x.o3 < y.o3 ∨ (x.o3 = y.o3 ∧ x.o4 ≤ y.o4)))))

/-- The pairwise device order the claim describes, written from its
words. -/
def deviceOrderSpec (a b : Device) : Prop :=
  (a.isOnline = true ∧ b.isOnline = false) ∨
  (a.isOnline = b.isOnline ∧ a.isGateway = true ∧ b.isGateway = false) ∨
  (a.isOnline = b.isOnline ∧ a.isGateway = b.isGateway ∧
    ipLeSpec a.currentIp b.currentIp)

/-! ## Condition tree (src/lib/stores/custom-rules.svelte.ts). The
TypeScript ConditionGroup is the union of the Condition leaves and the
ConditionLogic combinators; the union is flattened into one inductive
type, with the three ConditionLogic variants as the and, or and not
constructors. -/

/-- Embeds the Condition union: each leaf variant carries exactly the
fields its type declares. Numeric fields that are JavaScript numbers are
represented by Rat (threshold) and Nat (port). -/
inductive Condition where
  | isOnline
  | isTrusted
  | isGateway
  | ipMatches (pattern : String)
  | macMatches (pattern : String)
  | vendorContains (text : String)
  | hostnameContains (text : String)
  | hasOpenPorts
  | portOpen (port : Nat)
  | osUnknown
  | lowOsConfidence (threshold : Rat)
  | highLatency (ms : Rat)
  | customProperty (key : String) (value : String)
deriving DecidableEq

/-- Embeds the ConditionGroup recursive union: a Condition leaf, or a
ConditionLogic combinator with operator AND or OR over a conditions list,
or NOT over a single condition. -/
inductive ConditionGroup where
  | leaf (c : Condition)
  | and (conditions : List ConditionGroup)
  | or (conditions : List ConditionGroup)
  | not (condition : ConditionGroup)

/-- Embeds the isLogical type guard of the ConditionBuilder: true exactly
on the combinator variants, which carry an operator field. -/
def isLogical : ConditionGroup → Bool
  | .leaf _ => false
  | .and _ => true
  | .or _ => true
  | .not _ => true

/-! ## ConditionBuilder (the rule builder component) -/

/-- The maxDepth constant of the ConditionBuilder. -/
def maxDepth : Nat := 5

/-- The operator argument of the addCondition handler. -/
inductive BuilderOp where
  | andOp
  | orOp
deriving DecidableEq

/-- Embeds addCondition of the ConditionBuilder, applied at one node: on a
combinator with the same operator it pushes a fresh is_online leaf onto
the children; on any other node (a leaf, a NOT group, or a combinator with
the other operator) it wraps the node together with a fresh is_online leaf
in a new combinator of the requested operator. -/
def addCondition (op : BuilderOp) (g : ConditionGroup) : ConditionGroup :=
  match op, g with
  | .andOp, .and cs => .and (cs ++ [.leaf .isOnline])
  | .orOp, .or cs => .or (cs ++ [.leaf .isOnline])
  | .andOp, g => .and [g, .leaf .isOnline]
  | .orOp, g => .or [g, .leaf .isOnline]

/-- Whether the ConditionBuilder renders the add-AND/add-OR buttons at a
node: only when the node depth is strictly below maxDepth, and only on a
leaf or on an AND/OR combinator (a NOT group renders no add buttons). -/
def addButtonsShown (g : ConditionGroup) (depth : Nat) : Bool :=
  decide (depth < maxDepth) &&
    (match g with
     | .leaf _ => true
     | .and _ => true
     | .or _ => true
     | .not _ => false)

mutual

/-- Applies the addCondition handler at the node reached by the given
child-index path (the builder renders each child one level deeper), but
only when the builder actually offers the add buttons there; returns none
for an invalid path or a node where the buttons are not rendered. -/
def applyAddAt : ConditionGroup → List Nat → BuilderOp → Nat → Option ConditionGroup
  | g, [], op, depth =>
      if addButtonsShown g depth then some (addCondition op g) else none
  | .and cs, i :: p, op, depth =>
      (applyAddAtList cs i p op (depth + 1)).map .and
  | .or cs, i :: p, op, depth =>
      (applyAddAtList cs i p op (depth + 1)).map .or
  | .not c, 0 :: p, op, depth =>
      (applyAddAt c p op (depth + 1)).map .not
  | .not _, (_ + 1) :: _, _, _ => none
  | .leaf _, _ :: _, _, _ => none

/-- Applies an add action inside the i-th child of a combinator children
list. -/
def applyAddAtList : List ConditionGroup → Nat → List Nat → BuilderOp → Nat →
    Option (List ConditionGroup)
  | [], _, _, _, _ => none
  | c :: cs, 0, p, op, depth => (applyAddAt c p op depth).map (· :: cs)
  | c :: cs, i + 1, p, op, depth => (applyAddAtList cs i p op depth).map (c :: ·)

end

/-- Folds a sequence of builder add actions, each given by the path of the
node it is applied at and the operator button pressed, over a tree whose
root is rendered at depth 0. -/
def applyAdds (g : ConditionGroup) : List (List Nat × BuilderOp) → Option ConditionGroup
  | [] => some g
  | (path, op) :: rest => match applyAddAt g path op 0 with
      | none => none
      | some g2 => applyAdds g2 rest

/-- The initial condition of the rule form: a single is_online leaf. -/
def builderInit : ConditionGroup := .leaf .isOnline

mutual

/-- The maximal depth at which a node of the tree sits, with the root at
depth 0 (so a lone leaf has maximal node depth 0). -/
def maxNodeDepth : ConditionGroup → Nat
  | .leaf _ => 0
  | .and cs => maxNodeDepthList cs
  | .or cs => maxNodeDepthList cs
  | .not c => 1 + maxNodeDepth c

/-- The maximal node depth contributed by a children list, each child one
level deeper than the parent. -/
def maxNodeDepthList : List ConditionGroup → Nat
  | [] => 0
  | c :: cs => max (1 + maxNodeDepth c) (maxNodeDepthList cs)

end

/-! ## Condition evaluator. Modelled from the spec: the evaluator is the
backend rules engine (src-tauri alerts engine), outside the TypeScript
tree; the definitions below follow section 4 of the specification. -/

/-- Modelled from the spec: the evaluator depth bound of 5. -/
def maxEvalDepth : Nat := 5

/-- Whether the second character list occurs contiguously inside the
first. -/
def listContainsSeq : List Char → List Char → Bool
  | [], needle => needle.isEmpty
  | c :: t, needle => needle.isPrefixOf (c :: t) || listContainsSeq t needle

/-- Modelled from the spec: case-insensitive substring test used by the
text conditions. -/
def containsCI (haystack needle : String) : Bool :=
  listContainsSeq haystack.toLower.toList needle.toLower.toList

/-- Modelled from the spec: the numeric value of an IPv4 address. -/
def ipToNat (x : IpAddr) : Nat :=
  x.o1 * 16777216 + x.o2 * 65536 + x.o3 * 256 + x.o4

/-- Modelled from the spec: parse a dotted-quad IPv4 string. -/
def parseIp (s : String) : Option IpAddr :=
  match (s.splitOn ".").map String.toNat? with
  | [some a, some b, some c, some d] =>
      if a ≤ 255 ∧ b ≤ 255 ∧ c ≤ 255 ∧ d ≤ 255 then some ⟨a, b, c, d⟩ else none
  | _ => none

/-- Modelled from the spec: ipMatches. The pattern is a bare IPv4 for
exact match or a CIDR block for containment; prefix 0 matches everything
and prefix 32 is exact equality; an invalid pattern never matches. -/
def ipMatches (candidate : IpAddr) (pattern : String) : Bool :=
  match pattern.splitOn "/" with
  | [addr] => match parseIp addr with
      | some base => candidate = base
      | none => false
  | [addr, lenStr] =>
      match parseIp addr, lenStr.toNat? with
      | some base, some len =>
          if len ≤ 32 then
            ipToNat candidate / 2 ^ (32 - len) = ipToNat base / 2 ^ (32 - len)
          else false
      | _, _ => false
  | _ => false

/-- Modelled from the spec: split a MAC address string on colons or
hyphens, lower-cased. -/
def macParts (s : String) : List String :=
  (s.toLower.split fun c => c = ':' ∨ c = '-')

/-- Modelled from the spec: macMatches. Both sides must have six
colon-or-hyphen-separated octets; comparison is case-insensitive and a
star pattern octet matches any candidate octet; malformed input never
matches. -/
def macMatches (candidate pattern : String) : Bool :=
  let cs := macParts candidate
  let ps := macParts pattern
  cs.length = 6 && ps.length = 6 &&
    (List.zip ps cs).all fun pc => pc.1 = "*" || pc.1 = pc.2

/-- Modelled from the spec: the leaf predicate dispatch of the evaluator
over the device snapshot fields. -/
def evalCondition (c : Condition) (d : Device) : Bool :=
  match c with
  | .isOnline => d.isOnline
  | .isTrusted => d.isTrusted
  | .isGateway => d.isGateway
  | .ipMatches pattern => match d.currentIp with
      | some ip => ipMatches ip pattern
      | none => false
  | .macMatches pattern => match d.macAddress with
      | some mac => macMatches mac pattern
      | none => false
  | .vendorContains text => match d.vendor with
      | some v => containsCI v text
      | none => false
  | .hostnameContains text => match d.hostname with
      | some h => containsCI h text
      | none => false
  | .hasOpenPorts => !d.openPorts.isEmpty
  | .portOpen port => d.openPorts.any fun p => p.port = port && p.state = "open"
  | .osUnknown => d.osGuess.isNone
  | .lowOsConfidence threshold => d.osConfidence < threshold
  | .highLatency ms => match d.latencyMs with
      | some l => ms ≤ l
      | none => false
  | .customProperty key value =>
      d.customProperties.any fun kv => kv.1 = key && kv.2 = value

mutual

/-- Modelled from the spec: evaluate(node, device, depth). The depth check
comes first and fails closed to false beyond maxEvalDepth; AND over an
empty children list is true and fails fast on the first false child; OR
over an empty list is false and succeeds fast on the first true child;
NOT negates its single child; children are evaluated one level deeper. -/
def evaluate : ConditionGroup → Device → Nat → Bool
  | g, d, depth =>
      if depth > maxEvalDepth then false
      else match g with
        | .leaf c => evalCondition c d
        | .and cs => evalAllChildren cs d depth
        | .or cs => evalAnyChild cs d depth
        | .not c => !evaluate c d (depth + 1)

/-- Modelled from the spec: left-to-right short-circuit conjunction over
the children of an AND group. -/
def evalAllChildren : List ConditionGroup → Device → Nat → Bool
  | [], _, _ => true
  | c :: cs, d, depth => evaluate c d (depth + 1) && evalAllChildren cs d depth

/-- Modelled from the spec: left-to-right short-circuit disjunction over
the children of an OR group. -/
def evalAnyChild : List ConditionGroup → Device → Nat → Bool
  | [], _, _ => false
  | c :: cs, d, depth => evaluate c d (depth + 1) || evalAnyChild cs d depth

end

/-! ## Rule condition wire shape. A Custom Alert Rule serializes its
conditions field structurally from the TypeScript union declarations: each
leaf becomes an object holding exactly its declared fields, an AND or OR
combinator becomes an object with an operator field and a conditions
array, and a NOT combinator becomes an object with an operator field and a
single condition object. -/

/-- A JSON value, as produced by the structural serialization. -/
inductive Json where
  | str (s : String)
  | num (q : Rat)
  | arr (elements : List Json)
  | obj (fields : List (String × Json))

/-- The structural serialization of one Condition leaf, field for field
from its TypeScript variant declaration. -/
def encodeCondition : Condition → Json
  | .isOnline => .obj [("type", .str "is_online")]
  | .isTrusted => .obj [("type", .str "is_trusted")]
  | .isGateway => .obj [("type", .str "is_gateway")]
  | .ipMatches pattern => .obj [("type", .str "ip_matches"), ("pattern", .str pattern)]
  | .macMatches pattern => .obj [("type", .str "mac_matches"), ("pattern", .str pattern)]
  | .vendorContains text => .obj [("type", .str "vendor_contains"), ("text", .str text)]
  | .hostnameContains text =>
      .obj [("type", .str "hostname_contains"), ("text", .str text)]
  | .hasOpenPorts => .obj [("type", .str "has_open_ports")]
  | .portOpen port => .obj [("type", .str "port_open"), ("port", .num port)]
  | .osUnknown => .obj [("type", .str "os_unknown")]
  | .lowOsConfidence threshold =>
      .obj [("type", .str "low_os_confidence"), ("threshold", .num threshold)]
  | .highLatency ms => .obj [("type", .str "high_latency"), ("ms", .num ms)]
  | .customProperty key value =>
      .obj [("type", .str "custom_property"), ("key", .str key), ("value", .str value)]

mutual

/-- The structural serialization of a ConditionGroup. -/
def encodeGroup : ConditionGroup → Json
  | .leaf c => encodeCondition c
  | .and cs => .obj [("operator", .str "AND"), ("conditions", .arr (encodeGroupList cs))]
  | .or cs => .obj [("operator", .str "OR"), ("conditions", .arr (encodeGroupList cs))]
  | .not c => .obj [("operator", .str "NOT"), ("condition", encodeGroup c)]

/-- The structural serialization of a children list. -/
def encodeGroupList : List ConditionGroup → List Json
  | [] => []
  | c :: cs => encodeGroup c :: encodeGroupList cs

end

/-- Parses the remaining fields of a serialized Condition leaf, dispatched
on its type tag; a value of any other shape is rejected. -/
def decodeCondFields (tag : String) (rest : List (String × Json)) : Option Condition :=
  if tag = "is_online" then if rest.isEmpty then some .isOnline else none
  else if tag = "is_trusted" then if rest.isEmpty then some .isTrusted else none
  else if tag = "is_gateway" then if rest.isEmpty then some .isGateway else none
  else if tag = "ip_matches" then
    match rest with
    | [("pattern", Json.str p)] => some (.ipMatches p)
    | _ => none
  else if tag = "mac_matches" then
    match rest with
    | [("pattern", Json.str p)] => some (.macMatches p)
    | _ => none
  else if tag = "vendor_contains" then
    match rest with
    | [("text", Json.str t)] => some (.vendorContains t)
    | _ => none
  else if tag = "hostname_contains" then
    match rest with
    | [("text", Json.str t)] => some (.hostnameContains t)
    | _ => none
  else if tag = "has_open_ports" then if rest.isEmpty then some .hasOpenPorts else none
  else if tag = "port_open" then
    match rest with
    | [("port", Json.num q)] =>
        if q.den = 1 ∧ 0 ≤ q.num then some (.portOpen q.num.toNat) else none
    | _ => none
  else if tag = "os_unknown" then if rest.isEmpty then some .osUnknown else none
  else if tag = "low_os_confidence" then
    match rest with
    | [("threshold", Json.num q)] => some (.lowOsConfidence q)
    | _ => none
  else if tag = "high_latency" then
    match rest with
    | [("ms", Json.num q)] => some (.highLatency q)
    | _ => none
  else if tag = "custom_property" then
    match rest with
    | [("key", Json.str k), ("value", Json.str v)] => some (.customProperty k v)
    | _ => none
  else none

/-- Parses one serialized Condition leaf back: an object whose first field
is the type tag, with the remaining fields dispatched on the tag. -/
def decodeCondition : Json → Option Condition
  | .obj (("type", .str tag) :: rest) => decodeCondFields tag rest
  | _ => none

mutual

/-- Parses a serialized ConditionGroup back: objects led by an operator
field through the combinator shapes, everything else through the leaf
parser. -/
def decodeGroup : Json → Option ConditionGroup
  | .obj (("operator", .str opTag) :: rest) =>
      if opTag = "AND" then
        match rest with
        | [("conditions", .arr xs)] => (decodeGroupList xs).map .and
        | _ => none
      else if opTag = "OR" then
        match rest with
        | [("conditions", .arr xs)] => (decodeGroupList xs).map .or
        | _ => none
      else if opTag = "NOT" then
        match rest with
        | [("condition", j)] => (decodeGroup j).map .not
        | _ => none
      else none
  | j => (decodeCondition j).map .leaf

/-- Parses a serialized children list back, rejecting the whole list if
any element is rejected. -/
def decodeGroupList : List Json → Option (List ConditionGroup)
  | [] => some []
  | j :: js =>
      match decodeGroup j, decodeGroupList js with
      | some g, some gs => some (g :: gs)
      | _, _ => none

end

/-- The top-level keys of a serialized object, in declaration order. -/
def objKeys : Json → List String
  | .obj fields => fields.map Prod.fst
  | _ => []

/-- The fields each Condition leaf type requires, read off the TypeScript
Condition union declaration. -/
def conditionRequiredKeys : Condition → List String
  | .isOnline => ["type"]
  | .isTrusted => ["type"]
  | .isGateway => ["type"]
  | .ipMatches _ => ["type", "pattern"]
  | .macMatches _ => ["type", "pattern"]
  | .vendorContains _ => ["type", "text"]
  | .hostnameContains _ => ["type", "text"]
  | .hasOpenPorts => ["type"]
  | .portOpen _ => ["type", "port"]
  | .osUnknown => ["type"]
  | .lowOsConfidence _ => ["type", "threshold"]
  | .highLatency _ => ["type", "ms"]
  | .customProperty _ _ => ["type", "key", "value"]

/-- Whether a serialized value is an atom: a string or a number, never a
nested object or array. -/
def jsonIsAtom : Json → Bool
  | .str _ => true
  | .num _ => true
  | .arr _ => false
  | .obj _ => false

/-- Whether a serialized value is a flat object: every field value is an
atom, so it references no other node. -/
def jsonIsFlatObject : Json → Bool
  | .obj fields => fields.all fun kv => jsonIsAtom kv.2
  | _ => false

/-! ## Theorems -/

/-- If no scan is Running then the Running filter is empty. -/
lemma runningCount_eq_zero_of_not_hasRunning {scans : List ScanRec}
    (h : hasRunning scans = false) : runningCount scans = 0 := by
  unfold hasRunning at h
  unfold runningCount
  simp only [List.any_eq_false] at h
  simp only [List.length_eq_zero, List.filter_eq_nil_iff]
  intro a ha
  exact fun hcontra => by simpa [hcontra] using h a ha

/-- C10: the error history never exceeds 20 entries: addError truncates
the previous history to its last 19 entries before appending, so its
result length is the minimum of the grown length and 20, and every state
reachable from the initial state by the store operations has history
length at most 20. -/
theorem errorHistory_bounded :
    (∀ (e : AppError) (s : ErrorState),
      (addError e s).history.length = min (s.history.length + 1) 20) ∧
    (∀ s : ErrorState, ErrorReach s → s.history.length ≤ 20) := by
  constructor
  · intro e s
    simp [addError]
    omega
  · intro s h
    induction h with
    | init => simp [initialErrorState]
    | add e _ ih => simp [addError]; omega
    | clear _ ih => simpa [clearError] using ih
    | clearHist _ ih => simp [clearHistory]
    | hide _ ih => simpa [hideError] using ih

/-- Witness for C10 at a concrete reachable state. -/
theorem errorHistory_bounded_witness :
    (addError ⟨"SCAN_FAILED", "boom", none, "t0"⟩ initialErrorState).history.length ≤ 20 :=
  errorHistory_bounded.2 _ (ErrorReach.add _ ErrorReach.init)

/-- C7: after creation, the alert-store operations preserve every alert
field except the read flag: markRead flips isRead to true exactly on the
matching id, markAllRead sets only isRead on every alert, and addAlert
prepends without touching the existing alerts. -/
theorem alerts_immutable_except_read :
    ∀ (list : List Alert) (alertId : String) (x : Alert),
      List.Forall₂ (fun a b =>
          b.id = a.id ∧ b.alertType = a.alertType ∧ b.deviceId = a.deviceId ∧
          b.message = a.message ∧ b.severity = a.severity ∧
          b.createdAt = a.createdAt ∧
          b.isRead = (if a.id = alertId then true else a.isRead))
        list (markRead alertId list) ∧
      List.Forall₂ (fun a b =>
          b.id = a.id ∧ b.alertType = a.alertType ∧ b.deviceId = a.deviceId ∧
          b.message = a.message ∧ b.severity = a.severity ∧
          b.createdAt = a.createdAt ∧ b.isRead = true)
        list (markAllRead list) ∧
      addAlert x list = x :: list := by
  intro list alertId x
  refine ⟨?_, ?_, rfl⟩
  · induction list with
    | nil => exact List.Forall₂.nil
    | cons a t ih =>
        refine List.Forall₂.cons ?_ ih
        by_cases h : a.id = alertId <;> simp [markRead, h]
  · induction list with
    | nil => exact List.Forall₂.nil
    | cons a t ih => exact List.Forall₂.cons (by simp [markAllRead]) ih

/-- C8: the scan failure surfaced to the user is a structured error: the
scan-error handler wraps the event payload into an AppError carrying the
code SCAN_FAILED together with the payload message, and the error store
surfaces exactly that structured value. -/
theorem scanError_structured :
    ∀ (p : ScanErrorPayload) (now : String) (s : ErrorState),
      (scanErrorToAppError p now).code = "SCAN_FAILED" ∧
      (scanErrorToAppError p now).message = p.message ∧
      (addError (scanErrorToAppError p now) s).current_error =
        some (scanErrorToAppError p now) ∧
      (addError (scanErrorToAppError p now) s).is_visible = true := by
  intro p now s
  exact ⟨rfl, rfl, rfl, rfl⟩

/-- C4: at most one scan is Running: a start-scan request while a scan is
Running is rejected with the scan-in-progress conflict error and creates
nothing, an accepted request happens only when nothing is Running and
yields exactly one Running scan, and while the scanning flag is set both
scan buttons are disabled. -/
theorem single_running_scan :
    (∀ (scans : List ScanRec) (newId : String),
      hasRunning scans = true →
        startScanGuard scans newId = .error (.conflict "scan in progress")) ∧
    (∀ (scans : List ScanRec) (newId : String) (out : List ScanRec),
      startScanGuard scans newId = .ok out →
        hasRunning scans = false ∧ runningCount out = 1) ∧
    (((renderScanControls true).all fun b => b.disabled) = true) := by
  refine ⟨?_, ?_, rfl⟩
  · intro scans newId h
    simp [startScanGuard, h]
  · intro scans newId out h
    cases hr : hasRunning scans with
    | true => simp [startScanGuard, hr] at h
    | false =>
        simp [startScanGuard, hr] at h
        subst h
        refine ⟨rfl, ?_⟩
        have h0 := runningCount_eq_zero_of_not_hasRunning hr
        unfold runningCount at h0 ⊢
        simp [List.filter, h0]

/-- Witness for C4: starting a scan while one concrete scan is Running is
rejected with the conflict error, and the concrete accepted start from an
idle history has exactly one Running scan. -/
theorem single_running_scan_witness :
    startScanGuard [{ id := "s1", status := .running }] "s2" =
      .error (.conflict "scan in progress") ∧
    hasRunning ([] : List ScanRec) = false ∧
    runningCount [{ id := "s2", status := ScanStatus.running }] = 1 :=
  ⟨single_running_scan.1 _ _ (by rfl),
   single_running_scan.2.1 [] "s2" [{ id := "s2", status := .running }] (by rfl)⟩

/-- C3: the live types module refutes the claim at the seeded
untrusted-device rule row: the module keeps one shared AlertType union for
both the alert event field and the rule type field, that union has no
member whose value is untrusted_device, no seeded rule_type value is a
member of it at all, and the single shared value domain coincides with
neither of the two separate domains the claim describes (which do differ
from each other exactly in their distinguishing values). -/
theorem alertType_conflation :
    ("rule_untrusted_device", "untrusted_device", true, "warning", true) ∈
      alertRulesSeed ∧
    (∀ a : AlertType, alertTypeValue a ≠ "untrusted_device") ∧
    (seedRuleTypes.all fun s => !alertTypeValues.contains s) = true ∧
    seedRuleTypes = specRuleTypeValues ∧
    alertTypeValues ≠ specRuleTypeValues ∧
    alertTypeValues ≠ specEventTypeValues ∧
    specRuleTypeValues ≠ specEventTypeValues ∧
    "untrusted_device" ∈ specRuleTypeValues ∧
    "untrusted_device" ∉ specEventTypeValues ∧
    "unknown_device" ∈ specEventTypeValues ∧
    "unknown_device" ∉ specRuleTypeValues := by
  refine ⟨by decide, ?_, by decide, by decide, by decide, by decide, by decide,
    by decide, by decide, by decide, by decide⟩
  intro a
  cases a <;> decide

/-- C2: for every device snapshot, an And combinator with no children
evaluates to true and an Or combinator with no children evaluates to
false. -/
theorem evaluate_empty_combinators :
    ∀ d : Device,
      evaluate (.and []) d 0 = true ∧ evaluate (.or []) d 0 = false := by
  intro d
  constructor <;> simp [evaluate, evalAllChildren, evalAnyChild, maxEvalDepth]

/-- C6: markDeparted is a soft-state change with a minimal frame: on a map
containing the id it replaces exactly that device by a copy with isOnline
set to false, leaves every other key untouched, removes nothing, and a
key disappears only through removeDevice (upsertDevice also never removes
a device). -/
theorem markDeparted_soft_frame :
    ∀ (m : DeviceMap) (deviceId : String) (d : Device),
      m deviceId = some d →
      markDeparted deviceId m deviceId = some { d with isOnline := false } ∧
      (∀ k, k ≠ deviceId → markDeparted deviceId m k = m k) ∧
      (∀ k, (markDeparted deviceId m k).isSome = (m k).isSome) ∧
      (∀ (k : String) (dev : Device),
        (m k).isSome = true → (upsertDevice dev m k).isSome = true) ∧
      (∀ k, removeDevice deviceId m k = if k = deviceId then none else m k) := by
  intro m deviceId d h
  refine ⟨?_, ?_, ?_, ?_, fun k => rfl⟩
  · simp [markDeparted, h]
  · intro k hk
    simp [markDeparted, h, hk]
  · intro k
    by_cases hk : k = deviceId
    · subst hk
      simp [markDeparted, h]
    · simp [markDeparted, h, hk]
  · intro k dev hk
    unfold upsertDevice
    by_cases hkd : k = dev.id <;> simp [hkd, hk]

/-- The octet comparison of compareIps agrees with the octet-wise
lexicographic order. -/
lemma compareIps_le_iff (a b : Option IpAddr) :
    compareIps a b ≤ 0 ↔ ipLeSpec a b := by
  cases a with
  | none => cases b <;> simp [compareIps, ipLeSpec]
  | some x =>
      cases b with
      | none => simp [compareIps, ipLeSpec]
      | some y =>
          simp only [compareIps, ipLeSpec]
          split_ifs <;> omega

/-- The device comparator agrees with the order described by the claim. -/
lemma compareDevices_le_iff (a b : Device) :
    compareDevices a b ≤ 0 ↔ deviceOrderSpec a b := by
  unfold compareDevices deviceOrderSpec
  cases ha : a.isOnline <;> cases hb : b.isOnline <;>
    cases hg : a.isGateway <;> cases hh : b.isGateway <;>
      simp [compareIps_le_iff]

/-- The claimed order is transitive. -/
lemma deviceOrderSpec_trans {a b c : Device}
    (hab : deviceOrderSpec a b) (hbc : deviceOrderSpec b c) :
    deviceOrderSpec a c := by
  have ipTrans : ∀ x y z : Option IpAddr,
      ipLeSpec x y → ipLeSpec y z → ipLeSpec x z := by
    intro x y z hxy hyz
    cases x <;> cases y <;> cases z <;> (simp [ipLeSpec] at *; all_goals omega)
  unfold deviceOrderSpec at *
  rcases hab with ⟨ha1, ha2⟩ | ⟨ha1, ha2, ha3⟩ | ⟨ha1, ha2, ha3⟩ <;>
    rcases hbc with ⟨hb1, hb2⟩ | ⟨hb1, hb2, hb3⟩ | ⟨hb1, hb2, hb3⟩
  · rw [ha2] at hb1; exact absurd hb1 (by simp)
  · exact Or.inl ⟨ha1, hb1 ▸ ha2⟩
  · exact Or.inl ⟨ha1, hb1 ▸ ha2⟩
  · exact Or.inl ⟨ha1 ▸ hb1.symm ▸ rfl, hb2⟩
  · rw [ha3] at hb2; exact absurd hb2 (by simp)
  · exact Or.inr (Or.inl ⟨ha1.trans hb1, ha2, hb2 ▸ ha3⟩)
  · exact Or.inl ⟨ha1 ▸ hb1.symm ▸ rfl, hb2⟩
  · exact Or.inr (Or.inl ⟨ha1.trans hb1, hb2 ▸ ha2, hb3⟩)
  · exact Or.inr (Or.inr ⟨ha1.trans hb1, ha2.trans hb2, ipTrans _ _ _ ha3 hb3⟩)

/-- The claimed order is total. -/
lemma deviceOrderSpec_total (a b : Device) :
    deviceOrderSpec a b ∨ deviceOrderSpec b a := by
  have ipTotal : ∀ x y : Option IpAddr, ipLeSpec x y ∨ ipLeSpec y x := by
    intro x y
    cases x <;> cases y <;> (simp [ipLeSpec]; all_goals omega)
  unfold deviceOrderSpec
  cases ha : a.isOnline <;> cases hb : b.isOnline <;>
    cases hg : a.isGateway <;> cases hh : b.isGateway <;>
      simp <;> exact ipTotal _ _

/-- C9: the derived devices list is a permutation of the device map
values, pairwise ordered as the claim describes: online devices first,
gateway devices first among equal online status, remaining ties by
octet-wise IP comparison with absent IPs last. -/
theorem devices_sorted_spec :
    ∀ l : List Device,
      (sortedDevices l).Perm l ∧ (sortedDevices l).Pairwise deviceOrderSpec := by
  intro l
  constructor
  · exact List.mergeSort_perm l _
  · have hs := @List.sorted_mergeSort Device
      (fun a b : Device => decide (compareDevices a b ≤ 0))
      (fun a b c hab hbc => by
        simp only [decide_eq_true_eq] at *
        exact (compareDevices_le_iff a c).mpr
          (deviceOrderSpec_trans ((compareDevices_le_iff a b).mp hab)
            ((compareDevices_le_iff b c).mp hbc)))
      (fun a b => by
        simp only [Bool.or_eq_true, decide_eq_true_eq]
        rcases deviceOrderSpec_total a b with h | h
        · exact Or.inl ((compareDevices_le_iff a b).mpr h)
        · exact Or.inr ((compareDevices_le_iff b a).mpr h)) l
    unfold sortedDevices
    refine List.Pairwise.imp ?_ hs
    intro a b hab
    exact (compareDevices_le_iff a b).mp (by simpa using hab)

/-- A concrete device used by the witnesses. -/
def sampleDevice : Device :=
  { id := "dev-1", macAddress := some "aa:bb:cc:dd:ee:ff", vendor := some "Acme",
    hostname := some "printer.local", customName := none, deviceType := .printer,
    osGuess := none, osConfidence := 0, isTrusted := false, isGateway := false,
    notes := none, currentIp := some ⟨192, 168, 1, 50⟩, isOnline := true,
    latencyMs := none, openPorts := [], firstSeen := "t0", lastSeen := "t1",
    customProperties := [] }

/-- Witness for C6 on a concrete one-device map. -/
theorem markDeparted_soft_frame_witness :
    markDeparted "dev-1" (fun k => if k = "dev-1" then some sampleDevice else none)
        "dev-1" = some { sampleDevice with isOnline := false } :=
  (markDeparted_soft_frame _ "dev-1" sampleDevice (by simp)).1

/-- The click sequence that escapes the depth bound: four nested adds turn
the initial leaf into an AND chain whose node at depth 4 has children at
depth 5, and one further add with the opposite operator at that depth-4
node wraps its subtree one level deeper. Every action in the sequence is
applied at a node where the builder renders the add buttons. -/
def deepenActions : List (List Nat × BuilderOp) :=
  [([], .andOp), ([0], .andOp), ([0, 0], .andOp), ([0, 0, 0], .andOp),
   ([0, 0, 0, 0], .andOp), ([0, 0, 0, 0], .orOp)]

/-- The tree the click sequence produces: its deepest leaves sit at depth
6, beyond the configured maximum of 5. -/
def deepTree : ConditionGroup :=
  .and [.and [.and [.and [.or [.and [.leaf .isOnline, .leaf .isOnline],
    .leaf .isOnline], .leaf .isOnline], .leaf .isOnline], .leaf .isOnline],
    .leaf .isOnline]

/-- C1: a condition tree constructible through the rule builder with a
node at depth 6: the concrete click sequence, each click applied at a node
where the add buttons are rendered (all of them at depth strictly below
maxDepth), produces a tree whose maximal node depth is 6, exceeding the
configured maximum of 5. -/
theorem builder_depth_escape :
    applyAdds builderInit deepenActions = some deepTree ∧
    maxNodeDepth deepTree = 6 ∧ maxDepth = 5 := by
  refine ⟨?_, ?_, rfl⟩
  · simp [applyAdds, deepenActions, builderInit, applyAddAt, applyAddAtList,
      addButtonsShown, addCondition, maxDepth, deepTree]
  · simp [deepTree, maxNodeDepth, maxNodeDepthList]

/-- Decoding undoes encoding on every Condition leaf. -/
lemma decodeCondition_encodeCondition (c : Condition) :
    decodeCondition (encodeCondition c) = some c := by
  cases c <;> simp [encodeCondition, decodeCondition, decodeCondFields]

/-- A leaf encoding is never mistaken for a combinator object: decoding a
leaf encoding through the group parser lands in the leaf branch. -/
lemma decodeGroup_encodeCondition (c : Condition) :
    decodeGroup (encodeCondition c) = some (.leaf c) := by
  cases c <;> simp [encodeCondition, decodeGroup, decodeCondition, decodeCondFields]

/-- Decoding undoes encoding on a children list, element by element. -/
lemma decodeGroupList_encodeGroupList (cs : List ConditionGroup)
    (H : ∀ c ∈ cs, decodeGroup (encodeGroup c) = some c) :
    decodeGroupList (encodeGroupList cs) = some cs := by
  induction cs with
  | nil => simp [encodeGroupList, decodeGroupList]
  | cons c t ih =>
      simp only [encodeGroupList, decodeGroupList, H c (by simp)]
      rw [ih fun x hx => H x (by simp [hx])]

/-- Decoding undoes encoding on every ConditionGroup. -/
lemma decodeGroup_encodeGroup : ∀ g, decodeGroup (encodeGroup g) = some g := by
  have key : ∀ n (g : ConditionGroup), sizeOf g ≤ n →
      decodeGroup (encodeGroup g) = some g := by
    intro n
    induction n with
    | zero =>
        intro g h
        exact absurd h (by cases g <;> simp)
    | succ n ih =>
        intro g h
        match g with
        | .leaf c => exact decodeGroup_encodeCondition c
        | .and cs =>
            have hcs : ∀ c ∈ cs, decodeGroup (encodeGroup c) = some c := by
              intro c hc
              have h1 := List.sizeOf_lt_of_mem hc
              have h2 : sizeOf (ConditionGroup.and cs) = 1 + sizeOf cs := by simp
              exact ih c (by omega)
            simp [encodeGroup, decodeGroup, decodeGroupList_encodeGroupList cs hcs]
        | .or cs =>
            have hcs : ∀ c ∈ cs, decodeGroup (encodeGroup c) = some c := by
              intro c hc
              have h1 := List.sizeOf_lt_of_mem hc
              have h2 : sizeOf (ConditionGroup.or cs) = 1 + sizeOf cs := by simp
              exact ih c (by omega)
            simp [encodeGroup, decodeGroup, decodeGroupList_encodeGroupList cs hcs]
        | .not c =>
            have h1 : sizeOf (ConditionGroup.not c) = 1 + sizeOf c := by simp
            simp [encodeGroup, decodeGroup, ih c (by omega)]
  exact fun g => key (sizeOf g) g (le_refl _)

/-- C5: the rule condition wire shape: a NOT combinator serializes with a
single condition field holding exactly one child group, AND and OR
serialize with a conditions field holding the list of child groups, every
leaf serializes to a flat object carrying exactly the fields its type
requires and referencing no other node, and the whole shape round-trips
losslessly. -/
theorem condition_wire_shape :
    (∀ g, decodeGroup (encodeGroup g) = some g) ∧
    (∀ c, encodeGroup (.not c) =
      .obj [("operator", .str "NOT"), ("condition", encodeGroup c)]) ∧
    (∀ cs, encodeGroup (.and cs) =
      .obj [("operator", .str "AND"), ("conditions", .arr (encodeGroupList cs))]) ∧
    (∀ cs, encodeGroup (.or cs) =
      .obj [("operator", .str "OR"), ("conditions", .arr (encodeGroupList cs))]) ∧
    (∀ c : Condition,
      objKeys (encodeCondition c) = conditionRequiredKeys c ∧
      jsonIsFlatObject (encodeCondition c) = true) := by
  refine ⟨decodeGroup_encodeGroup, ?_, ?_, ?_, ?_⟩
  · intro c; simp [encodeGroup]
  · intro cs; simp [encodeGroup]
  · intro cs; simp [encodeGroup]
  · intro c
    cases c <;>
      simp [encodeCondition, objKeys, conditionRequiredKeys, jsonIsFlatObject,
        jsonIsAtom]

end Echolocate
